import Mathlib

/-!
# Verification of the workout-tracker store (src/app.py)

Shallow embedding of the single data-access component of the repository:
a SQLite table `workouts(id INTEGER PRIMARY KEY AUTOINCREMENT, date_text TEXT
NOT NULL, workout_json TEXT NOT NULL)` together with the three route handlers
`save_workout`, `load_workouts` and `delete_workout`.

Modelling decisions:
* JSON values are the inductive `Json`; Python dicts are ordered key/value
  lists (insertion order, assignment to an existing key updates the value in
  place, keeping the key's position), exactly the semantics of the dict
  literal `{'id': ..., 'date': ..., **workout_data}` in `load_workouts`.
* The stored `workout_json` TEXT column is modelled by `JsonText`:
  `JsonText.valid v` stands for text that `json.loads` parses to `v`
  (and `json.dumps v` produces), `JsonText.malformed s` for text that is not
  valid JSON, on which `json.loads` raises.  The Python `json` library is
  stdlib, not repository code, so it is abstracted as this exact serializer /
  parser pair.
* The AUTOINCREMENT row-id sequence is the `nextId` field of `DB`: SQLite's
  AUTOINCREMENT hands out ids strictly larger than any id ever used and a
  DELETE never resets the sequence.
* SQLite's default BINARY collation on TEXT compares UTF-8 bytes, which on
  well-formed UTF-8 coincides with codepoint order, i.e. with Lean's
  `String` order.  `ORDER BY date_text DESC` is modelled by an insertion
  sort under the relation `dateDesc`.
* Exceptions raised by a handler are modelled as error results; the store
  state returned alongside an error result is the unchanged input state.
-/

/-- JSON values.  Objects are ordered key/value lists (Python dict order). -/
inductive Json where
  | null : Json
  | bool : Bool → Json
  | num : Int → Json
  | str : String → Json
  | arr : List Json → Json
  | obj : List (String × Json) → Json

/-- Python `d.get(k)`: the value at the first occurrence of key `k`. -/
def dictGet (kvs : List (String × Json)) (k : String) : Option Json :=
  match kvs.find? (fun kv => kv.1 = k) with
  | some kv => some kv.2
  | none => none

/-- Python `d[k] = v`: update in place if `k` is present (keeping its
position), append otherwise. -/
def dictInsert (kvs : List (String × Json)) (k : String) (v : Json) :
    List (String × Json) :=
  if kvs.any (fun kv => kv.1 = k) then
    kvs.map (fun kv => if kv.1 = k then (k, v) else kv)
  else
    kvs ++ [(k, v)]

/-- The TEXT stored in the `workout_json` column: either text that
`json.loads` parses back to a value, or text that is not valid JSON. -/
inductive JsonText where
  | valid : Json → JsonText
  | malformed : String → JsonText

/-- Whether a stored `workout_json` text is not valid JSON. -/
def JsonText.isMalformed : JsonText → Bool
  | JsonText.valid _ => false
  | JsonText.malformed _ => true

/-- One row of the `workouts` table. -/
structure Row where
  id : Nat
  date_text : String
  workout_json : JsonText

/-- The persistent state: the rows of the `workouts` table plus the
AUTOINCREMENT sequence value (the next id to hand out). -/
structure DB where
  rows : List Row
  nextId : Nat

/-- The state right after `simple_init_db` on a fresh database file:
no rows, AUTOINCREMENT starts at 1. -/
def initialDb : DB where
  rows := []
  nextId := 1

/-- SQLite TEXT-affinity conversion of the Python value bound for the
`date_text` column (`workout_data.get('date', '')`): strings are stored
as-is, numbers are converted to their text form, booleans bind as the
integers 1/0 and are then converted to text; `None` violates the NOT NULL
constraint and a list or dict is an unsupported binding type, so those two
raise (modelled as `none`). -/
def dateTextOf : Json → Option String
  | Json.str s => some s
  | Json.num n => some (toString n)
  | Json.bool b => some (if b then "1" else "0")
  | Json.null => none
  | Json.arr _ => none
  | Json.obj _ => none

/-- Outcome of the `save_workout` route. -/
inductive SaveResp where
  | ok : Nat → SaveResp
  | serializationError : SaveResp
  | attributeError : SaveResp
  | bindError : SaveResp
deriving DecidableEq

/-- The body of `save_workout` after `request.get_json()` succeeded:
`workout_data.get('date', '')` (an `AttributeError` if the parsed body is
not a dict), `json.dumps(workout_data)`, then the INSERT, committing the
new row and returning `cursor.lastrowid`. -/
def save_workout (db : DB) (workout_data : Json) : DB × SaveResp :=
  match workout_data with
  | Json.obj kvs =>
    let dateVal := match dictGet kvs "date" with
      | some v => v
      | none => Json.str ""
    match dateTextOf dateVal with
    | some date_text =>
      ({ rows := db.rows ++ [⟨db.nextId, date_text, JsonText.valid (Json.obj kvs)⟩],
         nextId := db.nextId + 1 },
       SaveResp.ok db.nextId)
    | none => (db, SaveResp.bindError)
  | _ => (db, SaveResp.attributeError)

/-- The full `save_workout` route including `request.get_json()`: a body
that is not valid JSON fails there with a client error (the spec's
`SerializationError`) before any store access. -/
def handleSave (db : DB) (body : JsonText) : DB × SaveResp :=
  match body with
  | JsonText.malformed _ => (db, SaveResp.serializationError)
  | JsonText.valid v => save_workout db v

/-- SQLite's BINARY collation on TEXT: byte-wise comparison of the UTF-8
encodings, which on well-formed UTF-8 is exactly lexicographic comparison of
the codepoint sequences. -/
def strLt : List Char → List Char → Bool
  | [], [] => false
  | [], _ :: _ => true
  | _ :: _, [] => false
  | a :: as, b :: bs =>
    if a.val.toNat < b.val.toNat then true
    else if a.val.toNat = b.val.toNat then strLt as bs
    else false

/-- Descending order on the `date_text` column under SQLite's BINARY
collation: `a` sorts no later than `b` when `a`'s date is not smaller. -/
def dateDesc (a b : Row) : Prop :=
  strLt a.date_text.data b.date_text.data = false

instance : DecidableRel dateDesc :=
  fun _ _ => inferInstanceAs (Decidable (_ = false))

/-- `SELECT ... ORDER BY date_text DESC`. -/
def sortRows (rows : List Row) : List Row :=
  List.insertionSort dateDesc rows

/-- Reconstruction of one returned object in `load_workouts`:
`json.loads(row['workout_json'])` (raises on malformed text), then the dict
literal `{'id': row['id'], 'date': row['date_text'], **workout_data}`
(a `TypeError` if the parsed value is not a dict). -/
def rowToObj (row : Row) : Option Json :=
  match row.workout_json with
  | JsonText.valid (Json.obj payload) =>
    some (Json.obj (payload.foldl (fun acc kv => dictInsert acc kv.1 kv.2)
      [("id", Json.num row.id), ("date", Json.str row.date_text)]))
  | _ => none

/-- Sequencing of fallible per-row reconstruction: the first failure aborts
the whole request, no partial list is produced. -/
def mapOpt (f : α → Option β) : List α → Option (List β)
  | [] => some []
  | x :: xs =>
    match f x with
    | none => none
    | some y =>
      match mapOpt f xs with
      | none => none
      | some ys => some (y :: ys)

/-- The `load_workouts` route: select all rows ordered by `date_text`
descending, reconstruct each object, fail the whole request if any row
fails. -/
def load_workouts (db : DB) : Option (List Json) :=
  mapOpt rowToObj (sortRows db.rows)

/-- The `delete_workout` route: `DELETE FROM workouts WHERE id = ?`, commit,
and unconditionally answer `{"success": true}`. -/
def delete_workout (db : DB) (workout_id : Nat) : DB × Json :=
  ({ rows := db.rows.filter (fun r => r.id != workout_id),
     nextId := db.nextId },
   Json.obj [("success", Json.bool true)])

/-- Store invariant: row ids are pairwise distinct and every id is below
the AUTOINCREMENT sequence value. -/
def WF (db : DB) : Prop :=
  db.rows.Pairwise (fun a b => a.id ≠ b.id) ∧ ∀ r ∈ db.rows, r.id < db.nextId

/-- Whether a JSON value is an object (a Python dict after parsing). -/
def Json.isObj : Json → Bool
  | Json.obj _ => true
  | _ => false

/-! ## Helper lemmas -/

theorem strLt_asymm : ∀ x y : List Char, strLt x y = true → strLt y x = false := by
  intro x
  induction x with
  | nil =>
    intro y _
    cases y with
    | nil => rfl
    | cons b bs => rfl
  | cons a as ih =>
    intro y h
    cases y with
    | nil => simp [strLt] at h
    | cons b bs =>
      simp only [strLt] at h ⊢
      by_cases hab : a.val.toNat < b.val.toNat
      · have hba : ¬ b.val.toNat < a.val.toNat := Nat.not_lt.mpr (Nat.le_of_lt hab)
        have hbaeq : ¬ b.val.toNat = a.val.toNat := fun e => absurd (e ▸ hab) (Nat.lt_irrefl _)
        simp [hba, hbaeq]
      · simp only [hab, if_false] at h
        by_cases heq : a.val.toNat = b.val.toNat
        · simp only [heq, if_true] at h
          have hba : ¬ b.val.toNat < a.val.toNat := by omega
          have hbaeq : b.val.toNat = a.val.toNat := heq.symm
          simp [hba, hbaeq, ih bs h]
        · simp [heq] at h

theorem strLt_comp : ∀ (x : List Char) (y z : List Char),
    strLt x z = true → strLt x y = true ∨ strLt y z = true := by
  intro x
  induction x with
  | nil =>
    intro y z h
    cases z with
    | nil => simp [strLt] at h
    | cons c cs =>
      cases y with
      | nil => exact Or.inr rfl
      | cons b bs => exact Or.inl rfl
  | cons a as ih =>
    intro y z h
    cases z with
    | nil => simp [strLt] at h
    | cons c cs =>
      cases y with
      | nil => exact Or.inr rfl
      | cons b bs =>
        simp only [strLt] at h ⊢
        by_cases hac : a.val.toNat < c.val.toNat
        · by_cases hab : a.val.toNat < b.val.toNat
          · simp [hab]
          · have hbc : b.val.toNat < c.val.toNat := by omega
            right
            simp [hbc]
        · simp only [hac, if_false] at h
          by_cases haceq : a.val.toNat = c.val.toNat
          · simp only [haceq, if_true] at h
            by_cases hab : a.val.toNat < b.val.toNat
            · simp [hab]
            · by_cases habeq : a.val.toNat = b.val.toNat
              · cases ih bs cs h with
                | inl h1 => left; simp [hab, habeq, h1]
                | inr h1 =>
                  right
                  have hbc : ¬ b.val.toNat < c.val.toNat := by omega
                  have hbceq : b.val.toNat = c.val.toNat := by omega
                  simp [hbc, hbceq, h1]
              · have hbc : b.val.toNat < c.val.toNat := by omega
                right
                simp [hbc]
          · simp [haceq] at h

theorem dateDesc_trans : ∀ a b c : Row, dateDesc a b → dateDesc b c → dateDesc a c := by
  intro a b c hab hbc
  unfold dateDesc at *
  by_contra h
  have h' : strLt a.date_text.data c.date_text.data = true := by
    cases hx : strLt a.date_text.data c.date_text.data with
    | false => exact absurd hx h
    | true => rfl
  cases strLt_comp a.date_text.data b.date_text.data c.date_text.data h' with
  | inl h1 => rw [hab] at h1; exact Bool.false_ne_true h1
  | inr h1 => rw [hbc] at h1; exact Bool.false_ne_true h1

theorem dateDesc_total : ∀ a b : Row, dateDesc a b ∨ dateDesc b a := by
  intro a b
  unfold dateDesc
  cases hx : strLt a.date_text.data b.date_text.data with
  | false => exact Or.inl rfl
  | true => exact Or.inr (strLt_asymm _ _ hx)

instance : IsTrans Row dateDesc := ⟨dateDesc_trans⟩

instance : IsTotal Row dateDesc := ⟨dateDesc_total⟩

theorem sortRows_perm (rows : List Row) : (sortRows rows).Perm rows :=
  List.perm_insertionSort dateDesc rows

theorem sortRows_sorted (rows : List Row) : (sortRows rows).Pairwise dateDesc :=
  List.sorted_insertionSort dateDesc rows

theorem mapOpt_eq_none_of_mem {f : α → Option β} {l : List α} {x : α}
    (hx : x ∈ l) (hf : f x = none) : mapOpt f l = none := by
  induction l with
  | nil => cases hx
  | cons a as ih =>
    simp only [mapOpt]
    cases hx with
    | head => rw [hf]
    | tail _ hmem =>
      cases ha : f a with
      | none => rfl
      | some y => rw [ih hmem]

theorem save_workout_cases (db : DB) (b : Json) :
    (save_workout db b = (db, SaveResp.attributeError)) ∨
    (save_workout db b = (db, SaveResp.bindError)) ∨
    (∃ kvs dt, b = Json.obj kvs ∧
      save_workout db b =
        ({ rows := db.rows ++ [⟨db.nextId, dt, JsonText.valid (Json.obj kvs)⟩],
           nextId := db.nextId + 1 },
         SaveResp.ok db.nextId)) := by
  cases b with
  | obj kvs =>
    right
    unfold save_workout
    cases hd : dateTextOf (match dictGet kvs "date" with
      | some v => v
      | none => Json.str "") with
    | none => left; simp [hd]
    | some dt => right; exact ⟨kvs, dt, rfl, by simp [hd]⟩
  | null => left; rfl
  | bool x => left; rfl
  | num x => left; rfl
  | str x => left; rfl
  | arr x => left; rfl

theorem filter_ne_length (x : Nat) :
    ∀ (l : List Row) (r : Row), r ∈ l → r.id = x →
      l.Pairwise (fun a b => a.id ≠ b.id) →
      (l.filter (fun s => s.id != x)).length + 1 = l.length := by
  intro l
  induction l with
  | nil => intro r hr; cases hr
  | cons a as ih =>
    intro r hr hid hp
    rw [List.pairwise_cons] at hp
    cases hr with
    | head =>
      have ha : (a.id != x) = false := by simp [hid]
      have : as.filter (fun s => s.id != x) = as := by
        apply List.filter_eq_self.mpr
        intro s hs
        have : a.id ≠ s.id := hp.1 s hs
        simp
        omega
      simp [List.filter_cons, ha, this]
    | tail _ hmem =>
      have ha : (a.id != x) = true := by
        have : a.id ≠ r.id := hp.1 r hmem
        simp
        omega
      simp only [List.filter_cons, ha, if_true, List.length_cons]
      rw [← ih r hmem hid hp.2]

/-! ## Claims -/

/-- C1: evaluation of the code at the failing input.  The claim says the
returned object's `id` and `date` are taken from the row's dedicated columns,
overriding any `id`/`date` keys inside the stored payload.  The code's dict
literal `{'id': row['id'], 'date': row['date_text'], **workout_data}` spreads
the payload LAST, so payload keys win: for a stored row with column id 1 and
column date "2024-05-01" whose payload carries id 99 and date "1999-01-01",
`load_workouts` returns the payload's values, not the columns'.  This
contradicts the code's own comment "We ensure the original ID and Date are
used". -/
theorem c1_payload_wins_on_load :
    load_workouts
      ⟨[⟨1, "2024-05-01",
         JsonText.valid (Json.obj
           [("id", Json.num 99), ("date", Json.str "1999-01-01"),
            ("note", Json.str "x")])⟩], 2⟩ =
      some [Json.obj
        [("id", Json.num 99), ("date", Json.str "1999-01-01"),
         ("note", Json.str "x")]] := rfl

/-- C2: evaluation of the code at the failing input.  The claim says any
`id` key inside the payload P is discarded on read.  Inserting
`{"date": "2024-05-01", "id": 7}` into the empty store succeeds with
store-assigned id 1, yet the subsequently listed record carries `id` 7 —
the client's payload value, not the store's — so the payload's `id` key is
not discarded. -/
theorem c2_payload_id_not_discarded :
    (handleSave initialDb
        (JsonText.valid (Json.obj
          [("date", Json.str "2024-05-01"), ("id", Json.num 7)]))).2 =
      SaveResp.ok 1 ∧
    load_workouts
      (handleSave initialDb
        (JsonText.valid (Json.obj
          [("date", Json.str "2024-05-01"), ("id", Json.num 7)]))).1 =
      some [Json.obj [("id", Json.num 7), ("date", Json.str "2024-05-01")]] :=
  ⟨rfl, rfl⟩

/-- C3: `load_workouts` returns all stored records ordered by `date_text`
descending under lexicographic (SQLite BINARY) string comparison: the
selected row list is sorted by `dateDesc` and is a permutation of the stored
rows; and on the concrete store holding dates "2024-01-02", "2024-01-10",
"2024-01-01", "2024-1-9" the result order is "2024-1-9", "2024-01-10",
"2024-01-02", "2024-01-01" — the non-padded "2024-1-9" sorts by its string
value (first, since "1" > "0" at position 5), not its chronological value. -/
theorem c3_load_ordered_by_date_desc :
    (∀ db : DB,
      (sortRows db.rows).Pairwise dateDesc ∧ (sortRows db.rows).Perm db.rows) ∧
    load_workouts
      ⟨[⟨1, "2024-01-02", JsonText.valid (Json.obj [])⟩,
        ⟨2, "2024-01-10", JsonText.valid (Json.obj [])⟩,
        ⟨3, "2024-01-01", JsonText.valid (Json.obj [])⟩,
        ⟨4, "2024-1-9", JsonText.valid (Json.obj [])⟩], 5⟩ =
      some [Json.obj [("id", Json.num 4), ("date", Json.str "2024-1-9")],
            Json.obj [("id", Json.num 2), ("date", Json.str "2024-01-10")],
            Json.obj [("id", Json.num 1), ("date", Json.str "2024-01-02")],
            Json.obj [("id", Json.num 3), ("date", Json.str "2024-01-01")]] :=
  ⟨fun db => ⟨sortRows_sorted db.rows, sortRows_perm db.rows⟩, rfl⟩

/-- C4: evaluation of the code at the failing input.  The claim says that
for every input, a record listed right after the insert has `id` equal to
the value insert returned.  Inserting `{"date": "2024-06-01", "id": 99}`
into the empty store returns the newly assigned id 1, but the record then
listed carries `id` 99 (the payload's key wins in the read-side merge), so
the listed `id` differs from the returned one. -/
theorem c4_listed_id_differs_from_insert_result :
    (handleSave initialDb
        (JsonText.valid (Json.obj
          [("date", Json.str "2024-06-01"), ("id", Json.num 99)]))).2 =
      SaveResp.ok 1 ∧
    load_workouts
      (handleSave initialDb
        (JsonText.valid (Json.obj
          [("date", Json.str "2024-06-01"), ("id", Json.num 99)]))).1 =
      some [Json.obj [("id", Json.num 99), ("date", Json.str "2024-06-01")]] :=
  ⟨rfl, rfl⟩

/-- C5: deleting a nonexistent id is an unconditional success and leaves the
store unchanged: if no stored row has id `x`, `delete_workout` returns the
exact input state together with the `{"success": true}` response. -/
theorem c5_delete_nonexistent (db : DB) (x : Nat)
    (h : ∀ r ∈ db.rows, r.id ≠ x) :
    delete_workout db x = (db, Json.obj [("success", Json.bool true)]) := by
  unfold delete_workout
  have hf : db.rows.filter (fun r => r.id != x) = db.rows := by
    apply List.filter_eq_self.mpr
    intro r hr
    simpa using h r hr
  rw [hf]

/-- C5 witness: deleting id 2 from a store holding only ids 1 and 3 returns
the unchanged store and the success response. -/
theorem c5_delete_nonexistent_witness :
    delete_workout
      ⟨[⟨1, "2024-01-01", JsonText.valid (Json.obj [])⟩,
        ⟨3, "2024-01-03", JsonText.valid (Json.obj [])⟩], 4⟩ 2 =
      (⟨[⟨1, "2024-01-01", JsonText.valid (Json.obj [])⟩,
         ⟨3, "2024-01-03", JsonText.valid (Json.obj [])⟩], 4⟩,
       Json.obj [("success", Json.bool true)]) := by
  apply c5_delete_nonexistent
  intro r hr
  simp only [List.mem_cons, List.not_mem_nil, or_false] at hr
  rcases hr with rfl | rfl
  · decide
  · decide

/-- C6: deleting an existing id removes exactly that record: afterwards no
row with that id remains, every row with a different id is still present and
unchanged, exactly one row was removed, the id sequence is untouched, and
the response is `{"success": true}`. -/
theorem c6_delete_existing (db : DB) (x : Nat) (r : Row)
    (hr : r ∈ db.rows) (hid : r.id = x)
    (huniq : db.rows.Pairwise (fun a b => a.id ≠ b.id)) :
    (∀ s ∈ (delete_workout db x).1.rows, s.id ≠ x) ∧
    (∀ s ∈ db.rows, s.id ≠ x → s ∈ (delete_workout db x).1.rows) ∧
    (∀ s ∈ (delete_workout db x).1.rows, s ∈ db.rows) ∧
    (delete_workout db x).1.rows.length + 1 = db.rows.length ∧
    (delete_workout db x).1.nextId = db.nextId ∧
    (delete_workout db x).2 = Json.obj [("success", Json.bool true)] := by
  refine ⟨?_, ?_, ?_, ?_, rfl, rfl⟩
  · intro s hs
    have := (List.mem_filter.mp hs).2
    simpa using this
  · intro s hs hne
    exact List.mem_filter.mpr ⟨hs, by simpa using hne⟩
  · intro s hs
    exact (List.mem_filter.mp hs).1
  · exact filter_ne_length x db.rows r hr hid huniq

/-- C6 witness: deleting id 1 from a two-row store with ids 1 and 2. -/
theorem c6_delete_existing_witness :
    (∀ s ∈ (delete_workout
        ⟨[⟨1, "2024-01-01", JsonText.valid (Json.obj [])⟩,
          ⟨2, "2024-01-02", JsonText.valid (Json.obj [])⟩], 3⟩ 1).1.rows,
      s.id ≠ 1) ∧
    (delete_workout
        ⟨[⟨1, "2024-01-01", JsonText.valid (Json.obj [])⟩,
          ⟨2, "2024-01-02", JsonText.valid (Json.obj [])⟩], 3⟩ 1).1.rows.length + 1 = 2 := by
  have h := c6_delete_existing
    ⟨[⟨1, "2024-01-01", JsonText.valid (Json.obj [])⟩,
      ⟨2, "2024-01-02", JsonText.valid (Json.obj [])⟩], 3⟩ 1
    ⟨1, "2024-01-01", JsonText.valid (Json.obj [])⟩
    (List.mem_cons_self _ _) rfl
    (by
      constructor
      · intro b hb
        rw [List.mem_singleton] at hb
        subst hb
        decide
      · exact List.pairwise_singleton _ _)
  exact ⟨h.1, h.2.2.2.1⟩

/-- C7: row ids are assigned by the store, never by the client.  On a
well-formed store (pairwise-distinct ids, all below the AUTOINCREMENT
sequence value) the invariant is preserved by an insert with any body and by
a delete with any id (`load_workouts` takes no state and so preserves it
trivially); a successful insert assigns exactly the sequence value —
determined by the store state alone, whatever the body — which exceeds every
existing id (uniqueness), and two successive successful inserts return
strictly increasing ids. -/
theorem c7_store_assigned_ids (db : DB) (b1 b2 : Json) (x : Nat)
    (hwf : WF db) :
    WF (save_workout db b1).1 ∧
    WF (delete_workout db x).1 ∧
    (∀ i, (save_workout db b1).2 = SaveResp.ok i →
      i = db.nextId ∧ ∀ r ∈ db.rows, r.id < i) ∧
    (∀ i j, (save_workout db b1).2 = SaveResp.ok i →
      (save_workout (save_workout db b1).1 b2).2 = SaveResp.ok j → i < j) := by
  obtain ⟨hp, hbound⟩ := hwf
  have hdel : WF (delete_workout db x).1 := by
    constructor
    · exact List.Pairwise.sublist (List.filter_sublist _) hp
    · intro r hr
      exact hbound r (List.mem_filter.mp hr).1
  have hsave : ∀ (d : DB) (b : Json), WF d →
      WF (save_workout d b).1 ∧
      ∀ i, (save_workout d b).2 = SaveResp.ok i →
        i = d.nextId ∧ (save_workout d b).1.nextId = d.nextId + 1 := by
    intro d b hwfd
    obtain ⟨hpd, hbd⟩ := hwfd
    rcases save_workout_cases d b with h | h | ⟨kvs, dt, hbeq, h⟩
    · rw [h]
      exact ⟨⟨hpd, hbd⟩, fun i hi => by simp at hi⟩
    · rw [h]
      exact ⟨⟨hpd, hbd⟩, fun i hi => by simp at hi⟩
    · rw [h]
      refine ⟨⟨?_, ?_⟩, ?_⟩
      · rw [List.pairwise_append]
        refine ⟨hpd, List.pairwise_singleton _ _, ?_⟩
        intro a ha b' hb'
        rw [List.mem_singleton] at hb'
        subst hb'
        have := hbd a ha
        show a.id ≠ d.nextId
        omega
      · intro r hr
        rw [List.mem_append] at hr
        rcases hr with hr | hr
        · have := hbd r hr
          show r.id < d.nextId + 1
          omega
        · rw [List.mem_singleton] at hr
          subst hr
          show d.nextId < d.nextId + 1
          omega
      · intro i hi
        have hi' : SaveResp.ok d.nextId = SaveResp.ok i := hi
        injection hi' with hi'
        exact ⟨hi'.symm, rfl⟩
  refine ⟨(hsave db b1 ⟨hp, hbound⟩).1, hdel, ?_, ?_⟩
  · intro i hi
    have := ((hsave db b1 ⟨hp, hbound⟩).2 i hi).1
    subst this
    exact ⟨rfl, hbound⟩
  · intro i j hi hj
    have h1 := (hsave db b1 ⟨hp, hbound⟩).2 i hi
    have h2 := ((hsave (save_workout db b1).1 b2
      (hsave db b1 ⟨hp, hbound⟩).1).2 j hj).1
    omega

/-- C7 witness: the invariant holds after inserting `{"date": "d"}` into the
fresh store and after deleting id 0 from it, and the insert assigns id 1. -/
theorem c7_store_assigned_ids_witness :
    WF (save_workout initialDb (Json.obj [("date", Json.str "d")])).1 ∧
    WF (delete_workout initialDb 0).1 ∧
    (save_workout initialDb (Json.obj [("date", Json.str "d")])).2 =
      SaveResp.ok 1 := by
  have h := c7_store_assigned_ids initialDb
    (Json.obj [("date", Json.str "d")]) (Json.obj []) 0
    ⟨List.Pairwise.nil, by intro r hr; cases hr⟩
  exact ⟨h.1, h.2.1, rfl⟩

/-- C8: for an insert whose body is a JSON object lacking a `date` key,
`workout_data.get('date', '')` falls back to the empty string, so the stored
`date_text` is `""`, and the entire input object is serialized and stored
verbatim in `workout_json`. -/
theorem c8_missing_date_defaults_empty (db : DB) (kvs : List (String × Json))
    (h : dictGet kvs "date" = none) :
    save_workout db (Json.obj kvs) =
      ({ rows := db.rows ++ [⟨db.nextId, "", JsonText.valid (Json.obj kvs)⟩],
         nextId := db.nextId + 1 },
       SaveResp.ok db.nextId) := by
  unfold save_workout
  dsimp only
  rw [h]
  rfl

/-- C8 witness: inserting `{"note": "x"}` (no `date` key) into the fresh
store yields a row with empty `date_text` and the whole object stored. -/
theorem c8_missing_date_defaults_empty_witness :
    save_workout initialDb (Json.obj [("note", Json.str "x")]) =
      ({ rows := [⟨1, "", JsonText.valid (Json.obj [("note", Json.str "x")])⟩],
         nextId := 2 },
       SaveResp.ok 1) :=
  c8_missing_date_defaults_empty initialDb [("note", Json.str "x")] rfl

/-- C9: if any stored row's `workout_json` is not valid JSON text, the
`json.loads` call in `load_workouts` raises and the entire request fails:
no partial result is returned, there is no per-row error isolation. -/
theorem c9_malformed_row_fails_whole_load (db : DB) (r : Row)
    (hr : r ∈ db.rows) (hm : r.workout_json.isMalformed = true) :
    load_workouts db = none := by
  have hmem : r ∈ sortRows db.rows := (sortRows_perm db.rows).mem_iff.mpr hr
  have hnone : rowToObj r = none := by
    cases h : r.workout_json with
    | valid v => rw [h] at hm; simp [JsonText.isMalformed] at hm
    | malformed s => simp [rowToObj, h]
  exact mapOpt_eq_none_of_mem hmem hnone

/-- C9 witness: a two-row store whose second row holds malformed JSON makes
the whole load fail, although the first row is perfectly readable. -/
theorem c9_malformed_row_fails_whole_load_witness :
    load_workouts
      ⟨[⟨1, "2024-01-02", JsonText.valid (Json.obj [])⟩,
        ⟨2, "2024-01-01", JsonText.malformed "not json"⟩], 3⟩ = none := by
  apply c9_malformed_row_fails_whole_load _
    ⟨2, "2024-01-01", JsonText.malformed "not json"⟩
  · exact List.mem_cons_of_mem _ (List.mem_cons_self _ _)
  · rfl

/-- C10: a request body that is valid JSON but not a JSON object makes
`save_workout` fail with an uncaught `AttributeError` (the `.get` attribute
lookup on a non-dict value), which is a server error distinct from the
client-error `SerializationError` raised for bodies that are not valid JSON
at all; the store is left unchanged. -/
theorem c10_non_object_body_server_error (db : DB) (v : Json)
    (h : v.isObj = false) :
    handleSave db (JsonText.valid v) = (db, SaveResp.attributeError) ∧
    SaveResp.attributeError ≠ SaveResp.serializationError := by
  refine ⟨?_, by decide⟩
  cases v with
  | obj kvs => simp [Json.isObj] at h
  | null => rfl
  | bool b => rfl
  | num n => rfl
  | str s => rfl
  | arr xs => rfl

/-- C10 witness: a JSON-array body `[]` on a one-row store yields the
`AttributeError` outcome and the unchanged store. -/
theorem c10_non_object_body_server_error_witness :
    handleSave ⟨[⟨1, "d", JsonText.valid (Json.obj [])⟩], 2⟩
        (JsonText.valid (Json.arr [])) =
      (⟨[⟨1, "d", JsonText.valid (Json.obj [])⟩], 2⟩,
       SaveResp.attributeError) :=
  (c10_non_object_body_server_error
    ⟨[⟨1, "d", JsonText.valid (Json.obj [])⟩], 2⟩ (Json.arr []) rfl).1
